import Mathlib

/-!
Shallow embedding of the data-loading glue of the landslideFormer repository:
the COCO instance dataset mapper (`instance_coco_custom_dataset_mapper.py`)
and the dataset registrar (`fyk_semantic_coco_custom_dataset_mapper.py`).

Images and masks are modelled as `Grid` values (dimensions plus a total pixel
function); the realized random geometric transforms are modelled as `Tfm`
values whose action on grids follows the detectron2 transform semantics the
source relies on (flip, nearest-neighbour resize, fixed-size crop padding
segmentations with zero, as the source's own comment documents).
-/

/-- A raster of pixels: dimensions plus a total value function. -/
structure Grid (α : Type) where
  h : Nat
  w : Nat
  val : Nat → Nat → α

/-- A realized geometric transform, as produced by sampling the augmentation
generators: possible no-op (a flip generator may realize to the identity),
horizontal/vertical flip, a resize whose nearest-neighbour sampling maps are
`sy`/`sx`, and a fixed-size crop at offset `(oy, ox)` padded with the pad
value outside the source region. -/
inductive Tfm where
  | noop : Tfm
  | hflip : Tfm
  | vflip : Tfm
  | resize (h' w' : Nat) (sy sx : Nat → Nat) : Tfm
  | crop (size oy ox : Nat) : Tfm

/-- Output height of one transform applied to a grid of height `h`. -/
def Tfm.outH : Tfm → Nat → Nat
  | .noop, h => h
  | .hflip, h => h
  | .vflip, h => h
  | .resize h' _ _ _, _ => h'
  | .crop s _ _, _ => s

/-- Output width of one transform applied to a grid of width `w`. -/
def Tfm.outW : Tfm → Nat → Nat
  | .noop, w => w
  | .hflip, w => w
  | .vflip, w => w
  | .resize _ w' _ _, _ => w'
  | .crop s _ _, _ => s

/-- Action of one realized transform on a grid, with pad value `pad` used by
the crop outside the source region (detectron2's `FixedSizeCrop` pads the
image with a constant and, as the source comment at the `apply_segmentation`
call documents, pads segmentations with 0). -/
def Tfm.applyGrid (pad : α) : Tfm → Grid α → Grid α
  | .noop, g => g
  | .hflip, g => ⟨g.h, g.w, fun y x => g.val y (g.w - 1 - x)⟩
  | .vflip, g => ⟨g.h, g.w, fun y x => g.val (g.h - 1 - y) x⟩
  | .resize h' w' sy sx, g => ⟨h', w', fun y x => g.val (sy y) (sx x)⟩
  | .crop s oy ox, g =>
      ⟨s, s, fun y x => if oy + y < g.h ∧ ox + x < g.w then g.val (oy + y) (ox + x) else pad⟩

/-- Action of a whole realized transform sequence on a grid, first transform
applied first (as `TransformList.apply_segmentation` does). -/
def applyGridList (pad : α) (ts : List Tfm) (g : Grid α) : Grid α :=
  ts.foldl (fun g t => t.applyGrid pad g) g

/-- Height after a transform sequence. -/
def outHList (ts : List Tfm) (h : Nat) : Nat :=
  ts.foldl (fun h t => t.outH h) h

/-- Width after a transform sequence. -/
def outWList (ts : List Tfm) (w : Nat) : Nat :=
  ts.foldl (fun w t => t.outW w) w

/-- Source coordinate a given output pixel of one transform samples from,
`none` when the pixel is padding introduced by the crop.  `h`/`w` are the
transform's input dimensions. -/
def Tfm.srcCoord : Tfm → Nat → Nat → Nat × Nat → Option (Nat × Nat)
  | .noop, _, _, p => some p
  | .hflip, _, w, p => some (p.1, w - 1 - p.2)
  | .vflip, h, _, p => some (h - 1 - p.1, p.2)
  | .resize _ _ sy sx, _, _, p => some (sy p.1, sx p.2)
  | .crop _ oy ox, h, w, p =>
      if oy + p.1 < h ∧ ox + p.2 < w then some (oy + p.1, ox + p.2) else none

/-- Provenance of a final pixel through a transform sequence: the source-image
coordinate it originates from, or `none` when it was introduced by
cropping/padding somewhere along the chain.  `h`/`w` are the source image
dimensions. -/
def traceSrc : List Tfm → Nat → Nat → Nat × Nat → Option (Nat × Nat)
  | [], _, _, p => some p
  | t :: ts, h, w, p =>
      match traceSrc ts (t.outH h) (t.outW w) p with
      | some q => t.srcCoord h w q
      | none => none

/-- Well-formedness of one transform for given input dimensions: a resize's
sampling maps hit the input raster. -/
def TfmWF : Tfm → Nat → Nat → Prop
  | .resize h' w' sy sx, h, w => (∀ y < h', sy y < h) ∧ (∀ x < w', sx x < w)
  | _, _, _ => True

/-- Well-formedness of a transform sequence for given source dimensions. -/
def ListWF : List Tfm → Nat → Nat → Prop
  | [], _, _ => True
  | t :: ts, h, w => TfmWF t h w ∧ ListWF ts (t.outH h) (t.outW w)

/-- One COCO annotation as the mapper consumes it: a polygon-list
segmentation (each polygon a flat x,y coordinate list), a contiguous class
id, the crowd flag, and optional keypoints. -/
structure Anno where
  segmentation : List (List Int)
  category_id : Nat
  iscrowd : Nat
  keypoints : Option (List Int)

/-- X coordinates of a flat polygon coordinate list (even positions). -/
def polyXs (p : List Int) : List Int :=
  (p.enum.filter (fun q => q.1 % 2 == 0)).map (fun q => q.2)

/-- Y coordinates of a flat polygon coordinate list (odd positions). -/
def polyYs (p : List Int) : List Int :=
  (p.enum.filter (fun q => q.1 % 2 == 1)).map (fun q => q.2)

/-- Bounding box (x1, y1, x2, y2) of a polygon list, as
`PolygonMasks.get_bounding_boxes` computes it: coordinate-wise min/max over
all component polygons, the zero box for an instance with no polygons. -/
def bboxOfPolys (ps : List (List Int)) : Int × Int × Int × Int :=
  let xs := ps.flatMap polyXs
  let ys := ps.flatMap polyYs
  match xs.min?, xs.max?, ys.min?, ys.max? with
  | some x1, some x2, some y1, some y2 => (x1, y1, x2, y2)
  | _, _, _, _ => (0, 0, 0, 0)

/-- Positive-area box test used by `filter_empty_instances` (by_box): width
and height both strictly positive. -/
def boxNonempty (b : Int × Int × Int × Int) : Bool :=
  b.2.2.1 - b.1 > 0 && b.2.2.2 - b.2.1 > 0

/-- Instance fields kept by the mapper after conversion: image size, class
ids, boxes derived from the masks, and the rasterized boolean masks. -/
structure InstSet where
  image_size : Nat × Nat
  gt_classes : List Nat
  gt_boxes : List (Int × Int × Int × Int)
  gt_masks : List (Grid Bool)

/-- One dataset record, Detectron2 dataset-dict style: the loader-provided
fields plus the optional fields the mapper adds.  A missing key is `none`. -/
structure Record where
  file_name : String
  width : Option Nat
  height : Option Nat
  annos : Option (List Anno)
  image : Option (Grid Nat)
  padding_mask : Option (Grid Bool)
  instances : Option InstSet
  orig_shape : Option (Nat × Nat)
  task : Option String
  text : Option (List String)
  thing_ids : Option (List Nat)

/-- Schema of a loader-produced input record (spec section 6): file path and
image dimensions present, none of the mapper-produced keys present. -/
def IsInputRecord (d : Record) : Prop :=
  d.width.isSome = true ∧ d.height.isSome = true ∧ d.image = none ∧
  d.padding_mask = none ∧ d.instances = none ∧ d.orig_shape = none ∧
  d.task = none ∧ d.text = none ∧ d.thing_ids = none

/-- Inner slot-filling loop of `_get_texts`: write `k` successive slots of
`texts` starting at `num` with the prompt `p`, stopping at the end of the
list (the `if num >= len(texts): break`). -/
def writeSlots : List String → Nat → Nat → String → List String
  | texts, _, 0, _ => texts
  | texts, num, k + 1, p =>
      if texts.length ≤ num then texts
      else writeSlots (texts.set num p) (num + 1) k p

/-- Outer loop of `_get_texts`: iterate the class names in dataset
declaration order; for each name with a positive instance count, fill that
many successive slots with its prompt. -/
def fillLoop (counts : String → Nat) : List String → List String → Nat → List String
  | [], texts, _ => texts
  | n :: rest, texts, num =>
      if counts n > 0 then
        fillLoop counts rest (writeSlots texts num (counts n) ("a photo with a " ++ n))
          (min (num + counts n) texts.length)
      else fillLoop counts rest texts num

/-- Look up every class id in the class-name table, failing (as the Python
indexing `self.class_names[class_id]` would) when an id is out of range. -/
def lookupAll (class_names : List String) : List Nat → Option (List String)
  | [] => some []
  | c :: cs =>
      match class_names.get? c, lookupAll class_names cs with
      | some n, some ns => some (n :: ns)
      | _, _ => none

/-- Embedding of `InstanceCOCOCustomNewBaselineDatasetMapper._get_texts`:
start from `num_queries` copies of the default prompt, count the instances of
each class name, then fill slots in class-declaration order. -/
def get_texts (class_names : List String) (num_queries : Nat) (classes : List Nat) :
    Option (List String) :=
  match lookupAll class_names classes with
  | none => none
  | some mapped =>
      some (fillLoop (fun n => mapped.count n) class_names
        (List.replicate num_queries "an instance photo") 0)

/-- Embedding of `convert_coco_poly_to_mask`, with the polygon
rasterization (`frPyObjects` + `decode` of one polygon) abstracted as
`raster`: each segmentation's component polygons are decoded and OR-ed along
the channel axis into one mask; the results are stacked, an empty input
giving the empty `(0, height, width)` stack. -/
def convert_coco_poly_to_mask (raster : List Int → Nat → Nat → Bool)
    (segmentations : List (List (List Int))) (height width : Nat) : List (Grid Bool) :=
  let masks := segmentations.foldl
    (fun acc polygons =>
      acc ++ [Grid.mk height width (fun y x => polygons.any (fun p => raster p y x))])
    []
  if masks.isEmpty then [] else masks

/-- Static configuration surface consumed by `build_transform_gen` and
`from_config` (scale factors carried as rationals). -/
structure Cfg where
  IMAGE_SIZE : Nat
  MIN_SCALE : ℚ
  MAX_SCALE : ℚ
  RANDOM_FLIP : String
  FORMAT : String
  NUM_OBJECT_QUERIES : Nat
  N_CTX : Nat
  TASK_SEQ_LEN : Nat
  MAX_SEQ_LEN : Nat

/-- An augmentation generator specification, as `build_transform_gen`
assembles them. -/
inductive TfmGen where
  | RandomFlip (horizontal vertical : Bool) : TfmGen
  | ResizeScale (min_scale max_scale : ℚ) (target_height target_width : Nat) : TfmGen
  | FixedSizeCrop (crop_size : Nat × Nat) : TfmGen

/-- Embedding of `build_transform_gen`: the `assert is_train` failure is
`none`; otherwise an optional flip generator followed by the resize-with-
scale-jitter and the fixed-size crop. -/
def build_transform_gen (cfg : Cfg) (is_train : Bool) : Option (List TfmGen) :=
  if is_train = false then none
  else
    some
      ((if cfg.RANDOM_FLIP ≠ "none" then
          [TfmGen.RandomFlip (cfg.RANDOM_FLIP = "horizontal") (cfg.RANDOM_FLIP = "vertical")]
        else []) ++
        [TfmGen.ResizeScale cfg.MIN_SCALE cfg.MAX_SCALE cfg.IMAGE_SIZE cfg.IMAGE_SIZE,
         TfmGen.FixedSizeCrop (cfg.IMAGE_SIZE, cfg.IMAGE_SIZE)])

/-- Dataset metadata the mapper reads from the metadata catalog: the thing
classes and the `thing_dataset_id_to_contiguous_id` mapping in its iteration
order. -/
structure MetaInfo where
  thing_classes : List String
  thing_dataset_id_to_contiguous_id : List (Nat × Nat)

/-- State captured by `InstanceCOCOCustomNewBaselineDatasetMapper.__init__`. -/
structure Mapper where
  is_train : Bool
  num_queries : Nat
  tfm_gens : List TfmGen
  img_format : String
  class_names : List String
  things : List Nat
  max_seq_len : Nat
  task_seq_len : Nat

/-- Embedding of `from_config` followed by `__init__`: builds the generators
(failing when `build_transform_gen` asserts), sets
`num_queries = NUM_OBJECT_QUERIES - N_CTX`, and captures the metadata's thing
classes and contiguous thing ids. -/
def from_config (cfg : Cfg) (meta : MetaInfo) (is_train : Bool) : Option Mapper :=
  match build_transform_gen cfg is_train with
  | none => none
  | some gens =>
      some
        { is_train := is_train
          num_queries := cfg.NUM_OBJECT_QUERIES - cfg.N_CTX
          tfm_gens := gens
          img_format := cfg.FORMAT
          class_names := meta.thing_classes
          things := meta.thing_dataset_id_to_contiguous_id.map (fun kv => kv.2)
          max_seq_len := cfg.MAX_SEQ_LEN
          task_seq_len := cfg.TASK_SEQ_LEN }

/-- External world of one mapper call: reading the image file (`none` models
a failing read). -/
structure Env where
  readImage : String → Option (Grid Nat)

/-- Realized randomness and external transform semantics of one call: the
sampled transform sequence, its effect on one annotation's geometry
(detectron2's `transform_instance_annotations`), and the polygon
rasterization used by the RLE round trip. -/
structure TfmSem where
  tfms : List Tfm
  applyAnn : Anno → Anno
  raster : List Int → Nat → Nat → Bool

/-- Embedding of `detection_utils.check_image_size`: compare the record's
width/height with the loaded image when present (raising, i.e. `none`, on
mismatch) and fill them in when absent. -/
def checkImageSize (d : Record) (img : Grid Nat) : Option Record :=
  match d.width, d.height with
  | some w, some h => if w = img.w ∧ h = img.h then some d else none
  | some w, none => if w = img.w then some { d with height := some img.h } else none
  | none, some h => if h = img.h then some { d with width := some img.w } else none
  | none, none => some { d with width := some img.w, height := some img.h }

/-- Embedding of `InstanceCOCOCustomNewBaselineDatasetMapper.__call__` on the
private copy of the input record: load and size-check the image, apply the
realized transforms to image and all-ones padding indicator, store the
channel-first image and inverted indicator; in inference mode pop the
annotations and return; in training mode with annotations, strip keypoints,
drop crowd annotations, transform the rest, derive boxes from the masks,
filter empty instances, rasterize the kept polygon masks, and add the
instance set, original shape, task string, text prompts and thing ids.
Exceptions (failed read, size mismatch, missing `gt_masks` on an empty
instance list, class id out of range) are `none`. -/
def callRecord (m : Mapper) (env : Env) (sem : TfmSem) (d : Record) : Option Record :=
  (env.readImage d.file_name).bind (fun image =>
  (checkImageSize d image).bind (fun d1 =>
      let image' := applyGridList 128 sem.tfms image
      let pm1 := applyGridList false sem.tfms (Grid.mk image.h image.w (fun _ _ => true))
      let padding_mask : Grid Bool := Grid.mk pm1.h pm1.w (fun y x => !(pm1.val y x))
      let image_shape := (image'.h, image'.w)
      let d2 := { d1 with image := some image', padding_mask := some padding_mask }
      if m.is_train = false then some { d2 with annos := none }
      else
        match d1.annos with
        | none => some d2
        | some annos =>
          let annos1 :=
            ((annos.map (fun a => { a with keypoints := none })).filter
              (fun a => a.iscrowd == 0)).map sem.applyAnn
          if annos1.isEmpty then none
          else
            let kept := annos1.filter
              (fun a => !a.segmentation.isEmpty && boxNonempty (bboxOfPolys a.segmentation))
            let gt_masks := convert_coco_poly_to_mask sem.raster
              (kept.map (fun a => a.segmentation)) image'.h image'.w
            match get_texts m.class_names m.num_queries (kept.map (fun a => a.category_id)) with
            | none => none
            | some text =>
              some
                { d2 with
                  annos := none
                  instances := some
                    { image_size := image_shape
                      gt_classes := kept.map (fun a => a.category_id)
                      gt_boxes := kept.map (fun a => bboxOfPolys a.segmentation)
                      gt_masks := gt_masks }
                  orig_shape := some image_shape
                  task := some "The task is instance"
                  text := some text
                  thing_ids := some m.things }))

/-- Heap-level view of one call, making the `copy.deepcopy` at the top of
`__call__` explicit: records live in a heap (a list of cells) and the caller
passes a cell index; the call deep-copies that cell into a fresh cell and all
mutation happens there.  A failing call (`none` result) abandons the copy. -/
def callRecordHeap (m : Mapper) (env : Env) (sem : TfmSem) (heap : List Record)
    (p : Nat) : List Record × Option Nat :=
  match heap.get? p with
  | none => (heap, none)
  | some d =>
    match callRecord m env sem d with
    | some r => (heap ++ [r], some heap.length)
    | none => (heap ++ [d], none)

/-- A lazy dataset loader closure, as `DatasetCatalog.register` stores it:
the captured `load_coco_json` arguments. -/
structure Loader where
  json_file : String
  image_root : String
  dataset_name : Option String

/-- Invoking a loader closure: apply the external `load_coco_json` (abstract,
of result type `α`) to the captured arguments. -/
def Loader.load (load_coco_json : String → String → Option String → α) (l : Loader) : α :=
  load_coco_json l.json_file l.image_root l.dataset_name

/-- One metadata-catalog entry (only the attributes this repository sets). -/
structure MetaEntry where
  json_file : Option String
  image_root : Option String
  evaluator_type : Option String

/-- The two process-wide catalogs owned by the external framework. -/
structure Catalogs where
  datasets : String → Option Loader
  metadata : String → Option MetaEntry

/-- Embedding of `DatasetCatalog.register`: asserts the name is unused
(`none` on a duplicate) and stores the loader under the name. -/
def datasetCatalogRegister (name : String) (l : Loader) (c : Catalogs) : Option Catalogs :=
  if (c.datasets name).isSome then none
  else some { c with datasets := fun k => if k = name then some l else c.datasets k }

/-- Embedding of `MetadataCatalog.get(name).set(...)`: create the entry if
absent and set the given attributes. -/
def metadataSet (name json_file image_root evaluator_type : String) (c : Catalogs) : Catalogs :=
  { c with
    metadata := fun k =>
      if k = name then
        some { json_file := some json_file, image_root := some image_root,
               evaluator_type := some evaluator_type }
      else c.metadata k }

namespace Register

/-- Class names declared by `Register`. -/
def CLASS_NAMES : List String := ["__background__", "landslide"]

/-- Dataset root declared by `Register`. -/
def ROOT : String := "./datasets/coco/"

/-- Embedding of `os.path.join` for the two-argument calls `Register` makes. -/
def pathJoin (a b : String) : String :=
  if a.endsWith "/" then a ++ b else a ++ "/" ++ b

/-- Annotations root declared by `Register.__init__`. -/
def ANN_ROOT : String := "./datasets/coco/annotations/"

/-- Training image directory. -/
def TRAIN_PATH : String := pathJoin ROOT "CAS_img_jpg"

/-- Validation image directory (the same directory as training). -/
def VAL_PATH : String := pathJoin ROOT "CAS_img_jpg"

/-- Training annotation JSON path. -/
def TRAIN_JSON : String := pathJoin ANN_ROOT "instances_train2017.json"

/-- Validation annotation JSON path. -/
def VAL_JSON : String := pathJoin ANN_ROOT "instances_val2017.json"

/-- Declared dataset splits: name ↦ (image root, annotation JSON). -/
def PREDEFINED_SPLITS_DATASET : List (String × String × String) :=
  [("coco_landslide_train", TRAIN_PATH, TRAIN_JSON),
   ("coco_landslide_val", VAL_PATH, VAL_JSON)]

/-- Embedding of `Register.register_dataset_instances`: register the lazy
`load_coco_json` closure in the dataset catalog and set `json_file`,
`image_root` and `evaluator_type="coco"` on the metadata entry of the same
name. -/
def register_dataset_instances (name json_file image_root : String) (c : Catalogs) :
    Option Catalogs :=
  match datasetCatalogRegister name ⟨json_file, image_root, some name⟩ c with
  | none => none
  | some c1 => some (metadataSet name json_file image_root "coco" c1)

/-- Embedding of `Register.register_dataset`: register every declared split. -/
def register_dataset (c : Catalogs) : Option Catalogs :=
  PREDEFINED_SPLITS_DATASET.foldlM
    (fun c kv => register_dataset_instances kv.1 kv.2.2 kv.2.1 c) c

end Register

/-- Prompt list the spec describes, before truncation: one
`"a photo with a {name}"` entry per counted instance, classes in dataset
declaration order. -/
def promptFlat (counts : String → Nat) (names : List String) : List String :=
  names.flatMap (fun n => List.replicate (counts n) ("a photo with a " ++ n))

/-- Spec-side rendering of the prompt list (spec section 4.1, "Builds a
fixed-length prompt list"): default entries everywhere, the per-class
prompts overwriting the leading slots in class order, extras beyond the
query budget silently dropped. -/
def specTexts (class_names : List String) (nq : Nat) (counts : String → Nat) : List String :=
  (promptFlat counts class_names).take nq ++
    List.replicate (nq - (promptFlat counts class_names).length) "an instance photo"

/-- Spec-side rendering of the polygon-to-mask conversion (spec section 8):
one mask per input segmentation, the logical OR of its component polygons'
rasters. -/
def specPolyMasks (raster : List Int → Nat → Nat → Bool)
    (segmentations : List (List (List Int))) (height width : Nat) : List (Grid Bool) :=
  segmentations.map
    (fun polygons => Grid.mk height width (fun y x => polygons.any (fun p => raster p y x)))

theorem writeSlots_length (p : String) :
    ∀ (k : Nat) (texts : List String) (num : Nat),
      (writeSlots texts num k p).length = texts.length := by
  intro k
  induction k with
  | zero => intro texts num; rfl
  | succ k ih =>
      intro texts num
      simp only [writeSlots]
      split
      · rfl
      · rw [ih, List.length_set]

theorem writeSlots_getD (p dflt : String) :
    ∀ (k : Nat) (texts : List String) (num i : Nat),
      (writeSlots texts num k p).getD i dflt =
        if num ≤ i ∧ i < num + k ∧ i < texts.length then p else texts.getD i dflt := by
  intro k
  induction k with
  | zero =>
      intro texts num i
      simp only [writeSlots]
      split
      next h => exact absurd h (by omega)
      next => rfl
  | succ k ih =>
      intro texts num i
      simp only [writeSlots]
      split
      next hlen =>
        split
        next h => exact absurd h (by omega)
        next => rfl
      next hlen =>
        rw [ih (texts.set num p) (num + 1) i, List.length_set]
        have hnum : num < texts.length := by omega
        by_cases hi : i = num
        · subst hi
          rw [if_neg (by omega), if_pos (by omega)]
          simp [List.getD, List.getElem?_set_self, hnum]
        · have hset : (texts.set num p).getD i dflt = texts.getD i dflt := by
            simp [List.getD, List.getElem?_set_ne (show num ≠ i by omega)]
          rw [hset]
          by_cases hc : num ≤ i ∧ i < num + (k + 1) ∧ i < texts.length
          · rw [if_pos (by omega), if_pos hc]
          · rw [if_neg (by omega), if_neg hc]

theorem fillLoop_length (counts : String → Nat) :
    ∀ (names texts : List String) (num : Nat),
      (fillLoop counts names texts num).length = texts.length := by
  intro names
  induction names with
  | nil => intro texts num; rfl
  | cons n rest ih =>
      intro texts num
      simp only [fillLoop]
      split
      · rw [ih, writeSlots_length]
      · rw [ih]

theorem getD_append_left' (xs ys : List String) (i : Nat) (d : String) (h : i < xs.length) :
    (xs ++ ys).getD i d = xs.getD i d := by
  simp only [List.getD, List.get?_eq_getElem?]
  rw [List.getElem?_append]
  simp [h]

theorem getD_append_right' (xs ys : List String) (i : Nat) (d : String) (h : xs.length ≤ i) :
    (xs ++ ys).getD i d = ys.getD (i - xs.length) d := by
  simp only [List.getD, List.get?_eq_getElem?]
  rw [List.getElem?_append_right h]

theorem getD_replicate' (n : Nat) (v d : String) (i : Nat) :
    (List.replicate n v).getD i d = if i < n then v else d := by
  simp only [List.getD, List.get?_eq_getElem?, List.getElem?_replicate]
  split <;> rfl

theorem fillLoop_getD (counts : String → Nat) (dflt : String) :
    ∀ (names texts : List String) (num : Nat),
      num ≤ texts.length →
      (∀ j, num ≤ j → texts.getD j dflt = dflt) →
      ∀ i, i < texts.length →
        (fillLoop counts names texts num).getD i dflt =
          if num ≤ i then (promptFlat counts names).getD (i - num) dflt
          else texts.getD i dflt := by
  intro names
  induction names with
  | nil =>
      intro texts num h1 h2 i hi
      simp only [fillLoop, promptFlat, List.flatMap_nil, List.getD_nil]
      split
      next h => exact h2 i h
      next => rfl
  | cons n rest ih =>
      intro texts num h1 h2 i hi
      simp only [fillLoop]
      have hflat : promptFlat counts (n :: rest) =
          List.replicate (counts n) ("a photo with a " ++ n) ++ promptFlat counts rest := by
        simp [promptFlat]
      by_cases hk : counts n > 0
      · rw [if_pos hk]
        rw [ih (writeSlots texts num (counts n) ("a photo with a " ++ n))
            (min (num + counts n) texts.length)
            (by rw [writeSlots_length]; omega)
            (fun j hj => by
              rw [writeSlots_getD, if_neg (by omega)]
              exact h2 j (by omega))
            i (by rw [writeSlots_length]; exact hi)]
        rw [hflat]
        by_cases hi1 : num ≤ i
        · rw [if_pos hi1]
          by_cases hi2 : i < num + counts n
          · rw [if_neg (by omega)]
            rw [writeSlots_getD, if_pos (by omega)]
            rw [getD_append_left' _ _ _ _ (by simp only [List.length_replicate]; omega)]
            rw [getD_replicate', if_pos (by omega)]
          · rw [if_pos (by omega)]
            rw [getD_append_right' _ _ _ _ (by simp only [List.length_replicate]; omega)]
            simp only [List.length_replicate]
            have harith : i - min (num + counts n) texts.length = i - num - counts n := by
              omega
            rw [harith]
        · rw [if_neg hi1, if_neg (by omega)]
          rw [writeSlots_getD, if_neg (by omega)]
      · rw [if_neg hk]
        rw [ih texts num h1 h2 i hi, hflat]
        have hk0 : counts n = 0 := by omega
        rw [hk0]
        simp

theorem lookupAll_isSome (class_names : List String) :
    ∀ classes : List Nat, (∀ c ∈ classes, c < class_names.length) →
      ∃ mapped, lookupAll class_names classes = some mapped := by
  intro classes
  induction classes with
  | nil => intro _; exact ⟨[], rfl⟩
  | cons c cs ih =>
      intro h
      obtain ⟨ms, hms⟩ := ih (fun x hx => h x (List.mem_cons_of_mem c hx))
      have hc : c < class_names.length := h c (List.mem_cons_self c cs)
      have hn : class_names[c]? = some class_names[c] := List.getElem?_eq_getElem hc
      exact ⟨class_names[c] :: ms, by simp [lookupAll, List.get?_eq_getElem?, hn, hms]⟩

theorem get_texts_length (class_names : List String) (nq : Nat) (classes : List Nat)
    (l : List String) (h : get_texts class_names nq classes = some l) : l.length = nq := by
  unfold get_texts at h
  cases hm : lookupAll class_names classes with
  | none => rw [hm] at h; exact absurd h (by simp)
  | some mapped =>
      rw [hm] at h
      cases h
      rw [fillLoop_length, List.length_replicate]

theorem foldl_append_map (f : α → β) :
    ∀ (l : List α) (acc : List β),
      l.foldl (fun acc x => acc ++ [f x]) acc = acc ++ l.map f := by
  intro l
  induction l with
  | nil => intro acc; simp
  | cons x xs ih => intro acc; simp [ih]

theorem convert_eq_map (raster : List Int → Nat → Nat → Bool)
    (segmentations : List (List (List Int))) (height width : Nat) :
    convert_coco_poly_to_mask raster segmentations height width =
      specPolyMasks raster segmentations height width := by
  unfold convert_coco_poly_to_mask specPolyMasks
  rw [foldl_append_map]
  simp only [List.nil_append]
  split
  next h =>
    rw [List.isEmpty_iff] at h
    exact h.symm
  next => rfl

theorem applyGrid_h (pad : α) (t : Tfm) (g : Grid α) :
    (t.applyGrid pad g).h = t.outH g.h := by
  cases t <;> rfl

theorem applyGrid_w (pad : α) (t : Tfm) (g : Grid α) :
    (t.applyGrid pad g).w = t.outW g.w := by
  cases t <;> rfl

theorem applyGridList_h (pad : α) :
    ∀ (ts : List Tfm) (g : Grid α), (applyGridList pad ts g).h = outHList ts g.h := by
  intro ts
  induction ts with
  | nil => intro g; rfl
  | cons t ts ih =>
      intro g
      show (applyGridList pad ts (t.applyGrid pad g)).h = outHList ts (t.outH g.h)
      rw [ih, applyGrid_h]

theorem applyGridList_w (pad : α) :
    ∀ (ts : List Tfm) (g : Grid α), (applyGridList pad ts g).w = outWList ts g.w := by
  intro ts
  induction ts with
  | nil => intro g; rfl
  | cons t ts ih =>
      intro g
      show (applyGridList pad ts (t.applyGrid pad g)).w = outWList ts (t.outW g.w)
      rw [ih, applyGrid_w]

theorem applyGrid_val_srcCoord (pad : α) (t : Tfm) (g : Grid α) (q : Nat × Nat) :
    (t.applyGrid pad g).val q.1 q.2 =
      match t.srcCoord g.h g.w q with
      | some s => g.val s.1 s.2
      | none => pad := by
  cases t with
  | noop => rfl
  | hflip => rfl
  | vflip => rfl
  | resize h' w' sy sx => rfl
  | crop s oy ox =>
      show (if oy + q.1 < g.h ∧ ox + q.2 < g.w then g.val (oy + q.1) (ox + q.2) else pad) = _
      split
      next h => simp only [Tfm.srcCoord, if_pos h]
      next h => simp only [Tfm.srcCoord, if_neg h]

theorem applyGridList_val (pad : α) :
    ∀ (ts : List Tfm) (g : Grid α) (y x : Nat),
      (applyGridList pad ts g).val y x =
        match traceSrc ts g.h g.w (y, x) with
        | some s => g.val s.1 s.2
        | none => pad := by
  intro ts
  induction ts with
  | nil => intro g y x; rfl
  | cons t ts ih =>
      intro g y x
      show (applyGridList pad ts (t.applyGrid pad g)).val y x = _
      rw [ih]
      simp only [traceSrc, applyGrid_h, applyGrid_w]
      cases htr : traceSrc ts (t.outH g.h) (t.outW g.w) (y, x) with
      | none => rfl
      | some q =>
          simp only []
          rw [applyGrid_val_srcCoord]

theorem traceSrc_bounds :
    ∀ (ts : List Tfm) (h w : Nat) (p : Nat × Nat),
      ListWF ts h w → p.1 < outHList ts h → p.2 < outWList ts w →
      ∀ q, traceSrc ts h w p = some q → q.1 < h ∧ q.2 < w := by
  intro ts
  induction ts with
  | nil =>
      intro h w p _ hp1 hp2 q hq
      cases hq
      exact ⟨hp1, hp2⟩
  | cons t ts ih =>
      intro h w p hwf hp1 hp2 q hq
      simp only [traceSrc] at hq
      cases htr : traceSrc ts (t.outH h) (t.outW w) p with
      | none => rw [htr] at hq; cases hq
      | some q' =>
          rw [htr] at hq
          have hb := ih (t.outH h) (t.outW w) p hwf.2 hp1 hp2 q' htr
          cases t with
          | noop => cases hq; exact hb
          | hflip =>
              cases hq
              refine ⟨hb.1, ?_⟩
              have : q'.2 < w := hb.2
              omega
          | vflip =>
              cases hq
              refine ⟨?_, hb.2⟩
              have : q'.1 < h := hb.1
              omega
          | resize h' w' sy sx =>
              cases hq
              exact ⟨hwf.1.1 q'.1 hb.1, hwf.1.2 q'.2 hb.2⟩
          | crop s oy ox =>
              simp only [Tfm.srcCoord] at hq
              split at hq
              next hcond => cases hq; exact hcond
              next => cases hq

theorem checkImageSize_input (d : Record) (img : Grid Nat) (hw : d.width.isSome = true)
    (hh : d.height.isSome = true) (d1 : Record) (h : checkImageSize d img = some d1) :
    d1 = d := by
  obtain ⟨fn, dw, dh, da, dim, dpm, dins, dor, dtask, dtext, dth⟩ := d
  cases dw with
  | none => simp at hw
  | some w =>
    cases dh with
    | none => simp at hh
    | some hgt =>
      unfold checkImageSize at h
      simp only [] at h
      split at h
      · exact (Option.some.inj h).symm
      · simp at h

theorem checkImageSize_annos (d : Record) (img : Grid Nat) (d1 : Record)
    (h : checkImageSize d img = some d1) : d1.annos = d.annos := by
  obtain ⟨fn, dw, dh, da, dim, dpm, dins, dor, dtask, dtext, dth⟩ := d
  cases dw <;> cases dh <;> simp only [checkImageSize] at h <;> (try split at h) <;>
    first
      | (cases h; rfl)
      | simp at h

theorem callRecord_padding_mask (m : Mapper) (env : Env) (sem : TfmSem) (d r : Record)
    (img : Grid Nat) (him : env.readImage d.file_name = some img)
    (hc : callRecord m env sem d = some r) :
    r.padding_mask = some (Grid.mk
      (applyGridList false sem.tfms (Grid.mk img.h img.w (fun _ _ => true))).h
      (applyGridList false sem.tfms (Grid.mk img.h img.w (fun _ _ => true))).w
      (fun y x =>
        !((applyGridList false sem.tfms (Grid.mk img.h img.w (fun _ _ => true))).val y x))) := by
  unfold callRecord at hc
  rw [him] at hc
  simp only [Option.some_bind] at hc
  cases hd1 : checkImageSize d img with
  | none => rw [hd1] at hc; simp at hc
  | some d1 =>
    rw [hd1] at hc
    simp only [Option.some_bind] at hc
    split at hc
    · cases hc; rfl
    · split at hc
      · cases hc; rfl
      · split at hc
        · simp at hc
        · split at hc
          · simp at hc
          · cases hc; rfl

/-- C6: the padding mask produced by `__call__` is the complement of the
transformed all-ones indicator, and for a well-formed realized transform
sequence it is `true` exactly on the pixels that do not originate from the
source image (those introduced by cropping/padding) and `false` on pixels
that do, which it then locates inside the source raster. -/
theorem padding_mask_marks_padding (m : Mapper) (env : Env) (sem : TfmSem)
    (d r : Record) (pm : Grid Bool) (img : Grid Nat)
    (him : env.readImage d.file_name = some img)
    (hc : callRecord m env sem d = some r)
    (hpm : r.padding_mask = some pm)
    (hwf : ListWF sem.tfms img.h img.w)
    (y x : Nat) (hy : y < pm.h) (hx : x < pm.w) :
    (pm.val y x = true ↔ traceSrc sem.tfms img.h img.w (y, x) = none) ∧
    (∀ sy sx, traceSrc sem.tfms img.h img.w (y, x) = some (sy, sx) →
      sy < img.h ∧ sx < img.w) := by
  have hpm' := callRecord_padding_mask m env sem d r img him hc
  rw [hpm] at hpm'
  have hpmG := Option.some.inj hpm'
  subst hpmG
  have hdh : (applyGridList false sem.tfms (Grid.mk img.h img.w (fun _ _ => true))).h =
      outHList sem.tfms img.h := applyGridList_h false sem.tfms _
  have hdw : (applyGridList false sem.tfms (Grid.mk img.h img.w (fun _ _ => true))).w =
      outWList sem.tfms img.w := applyGridList_w false sem.tfms _
  constructor
  · show (!((applyGridList false sem.tfms (Grid.mk img.h img.w (fun _ _ => true))).val y x)) =
        true ↔ _
    rw [applyGridList_val]
    cases htr : traceSrc sem.tfms img.h img.w (y, x) with
    | none => simp
    | some s => simp
  · intro sy sx htr
    exact traceSrc_bounds sem.tfms img.h img.w (y, x) hwf
      (by rw [← hdh]; exact hy) (by rw [← hdw]; exact hx) (sy, sx) htr

/-- C3: with `is_train=False` the returned record never has the instance,
text or task keys and has no annotation list; the call only adds the image
tensor and the padding mask to the (schema-conforming) input record. -/
theorem inference_output_has_no_train_keys (m : Mapper) (env : Env) (sem : TfmSem)
    (d r : Record) (ht : m.is_train = false) (hin : IsInputRecord d)
    (hc : callRecord m env sem d = some r) :
    r.instances = none ∧ r.text = none ∧ r.task = none ∧ r.annos = none ∧
      ∃ img pm, r = { d with image := some img, padding_mask := some pm, annos := none } := by
  obtain ⟨hw, hh, himg, hpm, hinst, horig, htask, htext, hthing⟩ := hin
  unfold callRecord at hc
  cases him : env.readImage d.file_name with
  | none => rw [him] at hc; simp at hc
  | some img =>
    rw [him] at hc
    simp only [Option.some_bind] at hc
    cases hd1 : checkImageSize d img with
    | none => rw [hd1] at hc; simp at hc
    | some d1 =>
      rw [hd1] at hc
      simp only [Option.some_bind] at hc
      have hd1d : d1 = d := checkImageSize_input d img hw hh d1 hd1
      subst hd1d
      rw [if_pos ht] at hc
      cases hc
      exact ⟨hinst, htext, htask, rfl, _, _, rfl⟩

/-- C10: in training mode the instance, original-shape, task, text and
thing-id keys are present in the output exactly when the input record has an
annotation list, and whenever the task key is present its value is the
constant string; without annotations only image and padding mask are added. -/
theorem training_keys_iff_annos (m : Mapper) (env : Env) (sem : TfmSem) (d r : Record)
    (ht : m.is_train = true) (hin : IsInputRecord d)
    (hc : callRecord m env sem d = some r) :
    (d.annos.isSome = true →
      r.instances.isSome = true ∧ r.orig_shape.isSome = true ∧
      r.task = some "The task is instance" ∧ r.text.isSome = true ∧
      r.thing_ids.isSome = true) ∧
    (d.annos = none →
      r.instances = none ∧ r.orig_shape = none ∧ r.task = none ∧ r.text = none ∧
      r.thing_ids = none ∧
      ∃ img pm, r = { d with image := some img, padding_mask := some pm }) := by
  obtain ⟨hw, hh, himg, hpm, hinst, horig, htask, htext, hthing⟩ := hin
  unfold callRecord at hc
  cases him : env.readImage d.file_name with
  | none => rw [him] at hc; simp at hc
  | some img =>
    rw [him] at hc
    simp only [Option.some_bind] at hc
    cases hd1 : checkImageSize d img with
    | none => rw [hd1] at hc; simp at hc
    | some d1 =>
      rw [hd1] at hc
      simp only [Option.some_bind] at hc
      have hd1d : d1 = d := checkImageSize_input d img hw hh d1 hd1
      rw [hd1d] at hc
      rw [if_neg (by rw [ht]; simp)] at hc
      cases hda : d.annos with
      | none =>
          rw [hda] at hc
          simp only [] at hc
          cases hc
          constructor
          · intro habs; simp at habs
          · intro _
            exact ⟨hinst, horig, htask, htext, hthing, _, _, rfl⟩
      | some annos =>
          rw [hda] at hc
          simp only [] at hc
          split at hc
          · simp at hc
          · split at hc
            · simp at hc
            · cases hc
              constructor
              · intro _
                exact ⟨rfl, rfl, rfl, rfl, rfl⟩
              · intro habs
                exact absurd habs (by simp)

/-- C1: the text-prompt list built by `_get_texts` for a mapper constructed
by `from_config` always has length `NUM_OBJECT_QUERIES - N_CTX`, for any
list of valid class ids (however many instances there are), and the list
stored under the text key of a training-mode output record has that same
length. -/
theorem get_texts_budget_length (cfg : Cfg) (meta : MetaInfo) (m : Mapper)
    (classes : List Nat) (hm : from_config cfg meta true = some m)
    (hvalid : ∀ c ∈ classes, c < m.class_names.length) :
    (∃ l, get_texts m.class_names m.num_queries classes = some l ∧
       l.length = cfg.NUM_OBJECT_QUERIES - cfg.N_CTX) ∧
    (∀ (env : Env) (sem : TfmSem) (d r : Record) (t : List String),
       IsInputRecord d → callRecord m env sem d = some r → r.text = some t →
       t.length = cfg.NUM_OBJECT_QUERIES - cfg.N_CTX) := by
  have hmt : m.is_train = true ∧ m.num_queries = cfg.NUM_OBJECT_QUERIES - cfg.N_CTX := by
    unfold from_config at hm
    split at hm
    · simp at hm
    · cases hm; exact ⟨rfl, rfl⟩
  constructor
  · obtain ⟨mapped, hmap⟩ := lookupAll_isSome m.class_names classes hvalid
    refine ⟨_, by unfold get_texts; rw [hmap], ?_⟩
    rw [fillLoop_length, List.length_replicate, hmt.2]
  · intro env sem d r t hin hc htext
    obtain ⟨hw, hh, himg, hpm, hinst, horig, htask, htext', hthing⟩ := hin
    unfold callRecord at hc
    cases him : env.readImage d.file_name with
    | none => rw [him] at hc; simp at hc
    | some img =>
      rw [him] at hc
      simp only [Option.some_bind] at hc
      cases hd1 : checkImageSize d img with
      | none => rw [hd1] at hc; simp at hc
      | some d1 =>
        rw [hd1] at hc
        simp only [Option.some_bind] at hc
        have hd1d : d1 = d := checkImageSize_input d img hw hh d1 hd1
        rw [hd1d] at hc
        rw [if_neg (by rw [hmt.1]; simp)] at hc
        cases hda : d.annos with
        | none =>
            rw [hda] at hc
            simp only [] at hc
            cases hc
            simp only [] at htext
            simp [htext'] at htext
        | some annos =>
            rw [hda] at hc
            simp only [] at hc
            split at hc
            · simp at hc
            · split at hc
              next heq => simp at hc
              next text' heq =>
                cases hc
                simp only [Option.some.injEq] at htext
                subst htext
                rw [← hmt.2]
                exact get_texts_length _ _ _ _ heq

theorem getD_take' (xs : List String) (n i : Nat) (d : String) (h : i < n) :
    (xs.take n).getD i d = xs.getD i d := by
  simp [List.getD, List.getElem?_take, h]

theorem getD_of_le (xs : List String) (i : Nat) (d : String) (h : xs.length ≤ i) :
    xs.getD i d = d := by
  simp [List.getD, List.getElem?_eq_none h]

/-- C2: the prompt list `_get_texts` builds agrees with the spec's
description: default entries in every slot except that, for each class in
dataset declaration order, one leading unused slot per counted instance is
overwritten with that class's prompt, extras beyond the budget being
dropped; an empty class list leaves every slot at the default. -/
theorem get_texts_spec_contents (class_names : List String) (nq : Nat) (classes : List Nat)
    (mapped : List String) (hmap : lookupAll class_names classes = some mapped) :
    get_texts class_names nq classes =
      some (specTexts class_names nq (fun n => mapped.count n)) := by
  unfold get_texts
  rw [hmap]
  simp only []
  congr 1
  have hlen1 : (fillLoop (fun n => mapped.count n) class_names
      (List.replicate nq "an instance photo") 0).length = nq := by
    rw [fillLoop_length, List.length_replicate]
  have hlen2 : (specTexts class_names nq (fun n => mapped.count n)).length = nq := by
    unfold specTexts
    rw [List.length_append, List.length_take, List.length_replicate]
    omega
  apply List.ext_getElem (by rw [hlen1, hlen2])
  intro i h1 h2
  rw [← List.getD_eq_getElem _ "an instance photo" h1,
    ← List.getD_eq_getElem _ "an instance photo" h2]
  have hi : i < nq := by rw [hlen1] at h1; exact h1
  rw [fillLoop_getD (fun n => mapped.count n) "an instance photo" class_names
      (List.replicate nq "an instance photo") 0 (by simp)
      (fun j _ => by rw [getD_replicate']; split <;> rfl)
      i (by rw [List.length_replicate]; exact hi)]
  rw [if_pos (Nat.zero_le i), Nat.sub_zero]
  unfold specTexts
  by_cases hf : i < (promptFlat (fun n => mapped.count n) class_names).length
  · rw [getD_append_left' _ _ _ _ (by rw [List.length_take]; omega)]
    rw [getD_take' _ _ _ _ hi]
  · rw [getD_append_right' _ _ _ _ (by rw [List.length_take]; omega)]
    rw [List.length_take]
    rw [getD_of_le _ _ _ (by omega)]
    rw [getD_replicate', if_pos (by omega)]

theorem kept_chain (applyAnn : Anno → Anno) (pred : Anno → Bool) (annos : List Anno) :
    ((((annos.map (fun a => { a with keypoints := none })).filter
        (fun a => a.iscrowd == 0)).map applyAnn).filter pred).length ≤ annos.length ∧
    ∀ b ∈ (((annos.map (fun a => { a with keypoints := none })).filter
        (fun a => a.iscrowd == 0)).map applyAnn).filter pred,
      pred b = true ∧ ∃ a, a ∈ annos ∧ a.iscrowd = 0 ∧
        b = applyAnn { a with keypoints := none } := by
  constructor
  · refine le_trans (List.length_filter_le _ _) ?_
    rw [List.length_map]
    refine le_trans (List.length_filter_le _ _) ?_
    rw [List.length_map]
  · intro b hb
    obtain ⟨hb1, hb2⟩ := List.mem_filter.mp hb
    refine ⟨hb2, ?_⟩
    obtain ⟨c, hc1, hc2⟩ := List.mem_map.mp hb1
    obtain ⟨hc3, hc4⟩ := List.mem_filter.mp hc1
    obtain ⟨a, ha1, ha2⟩ := List.mem_map.mp hc3
    refine ⟨a, ha1, ?_, ?_⟩
    · have hcz : c.iscrowd = 0 := by simpa using hc4
      rw [← ha2] at hcz
      exact hcz
    · rw [← hc2, ← ha2]

/-- C4: in training mode the stored instance set comes only from non-crowd
annotations, every retained instance passes the nonempty-mask filter (at
least one polygon and a positive-area box after the transforms), the mask
and box lists are aligned with the class list, and the instance count never
exceeds the input annotation count. -/
theorem training_instances_filtered (m : Mapper) (env : Env) (sem : TfmSem)
    (d r : Record) (annos : List Anno) (iset : InstSet)
    (ht : m.is_train = true) (ha : d.annos = some annos)
    (hc : callRecord m env sem d = some r) (hi : r.instances = some iset) :
    iset.gt_classes.length ≤ annos.length ∧
    iset.gt_masks.length = iset.gt_classes.length ∧
    iset.gt_boxes.length = iset.gt_classes.length ∧
    ∀ i (h : i < iset.gt_classes.length),
      ∃ a, a ∈ annos ∧ a.iscrowd = 0 ∧
        iset.gt_classes[i] = (sem.applyAnn { a with keypoints := none }).category_id ∧
        (sem.applyAnn { a with keypoints := none }).segmentation ≠ [] ∧
        boxNonempty (bboxOfPolys
          ((sem.applyAnn { a with keypoints := none }).segmentation)) = true := by
  unfold callRecord at hc
  cases him : env.readImage d.file_name with
  | none => rw [him] at hc; simp at hc
  | some img =>
    rw [him] at hc
    simp only [Option.some_bind] at hc
    cases hd1 : checkImageSize d img with
    | none => rw [hd1] at hc; simp at hc
    | some d1 =>
      rw [hd1] at hc
      simp only [Option.some_bind] at hc
      rw [if_neg (by rw [ht]; simp)] at hc
      have hda : d1.annos = some annos := by rw [checkImageSize_annos d img d1 hd1, ha]
      rw [hda] at hc
      simp only [] at hc
      split at hc
      · simp at hc
      · split at hc
        · simp at hc
        · next text heq =>
            cases hc
            simp only [Option.some.injEq] at hi
            subst hi
            have hchain := kept_chain sem.applyAnn
              (fun a => !a.segmentation.isEmpty && boxNonempty (bboxOfPolys a.segmentation))
              annos
            refine ⟨?_, ?_, ?_, ?_⟩
            · rw [List.length_map]
              exact hchain.1
            · rw [convert_eq_map]
              unfold specPolyMasks
              rw [List.length_map, List.length_map, List.length_map]
            · rw [List.length_map, List.length_map]
            · intro i h
              rw [List.length_map] at h
              have hb := List.getElem_mem h
              obtain ⟨hpred, a, ha1, ha2, hba⟩ := hchain.2 _ hb
              simp only [Bool.and_eq_true, Bool.not_eq_true'] at hpred
              refine ⟨a, ha1, ha2, ?_, ?_, ?_⟩
              · rw [List.getElem_map, hba]
              · rw [← hba]
                intro hnil
                rw [hnil] at hpred
                simp at hpred
              · rw [← hba]
                exact hpred.2

/-- C5: `convert_coco_poly_to_mask` yields exactly one boolean mask per
input segmentation, each at the given height and width, equal to the
logical OR of the rasters of that segmentation's component polygons. -/
theorem convert_poly_one_mask_per_instance (raster : List Int → Nat → Nat → Bool)
    (segmentations : List (List (List Int))) (height width : Nat) :
    convert_coco_poly_to_mask raster segmentations height width =
      specPolyMasks raster segmentations height width ∧
    (convert_coco_poly_to_mask raster segmentations height width).length =
      segmentations.length :=
  ⟨convert_eq_map raster segmentations height width, by
    rw [convert_eq_map]
    unfold specPolyMasks
    rw [List.length_map]⟩

/-- C8: a mapper call never mutates the caller's record: the call works on a
deep copy placed in a fresh heap cell, so every pre-existing heap cell (the
caller's record in particular) is unchanged, in training and inference mode
alike. -/
theorem call_leaves_caller_record_unchanged (m : Mapper) (env : Env) (sem : TfmSem)
    (heap : List Record) (p q : Nat) (hq : q < heap.length) :
    ((callRecordHeap m env sem heap p).1).get? q = heap.get? q := by
  unfold callRecordHeap
  split
  · rfl
  · split
    · simp [List.get?_eq_getElem?, List.getElem?_append_left hq]
    · simp [List.get?_eq_getElem?, List.getElem?_append_left hq]

/-- C9: `build_transform_gen` produces the generators in the fixed order
flip-resize-crop, the flip present exactly when the flip option is not
"none" with its axis taken from the option, so the list has length 3 with
flipping enabled and length 2 otherwise. -/
theorem build_transform_gen_order (cfg : Cfg) :
    ∃ l, build_transform_gen cfg true = some l ∧
      (cfg.RANDOM_FLIP = "none" →
        l = [TfmGen.ResizeScale cfg.MIN_SCALE cfg.MAX_SCALE cfg.IMAGE_SIZE cfg.IMAGE_SIZE,
             TfmGen.FixedSizeCrop (cfg.IMAGE_SIZE, cfg.IMAGE_SIZE)] ∧ l.length = 2) ∧
      (cfg.RANDOM_FLIP ≠ "none" →
        l = [TfmGen.RandomFlip (cfg.RANDOM_FLIP = "horizontal") (cfg.RANDOM_FLIP = "vertical"),
             TfmGen.ResizeScale cfg.MIN_SCALE cfg.MAX_SCALE cfg.IMAGE_SIZE cfg.IMAGE_SIZE,
             TfmGen.FixedSizeCrop (cfg.IMAGE_SIZE, cfg.IMAGE_SIZE)] ∧ l.length = 3) := by
  unfold build_transform_gen
  rw [if_neg (by simp)]
  refine ⟨_, rfl, ?_, ?_⟩
  · intro h
    rw [if_neg (by simp [h])]
    exact ⟨rfl, rfl⟩
  · intro h
    rw [if_pos h]
    exact ⟨rfl, rfl⟩

/-- C7: registering two distinct dataset names that point at the same JSON
file yields two independent catalog entries: each dataset-catalog entry
holds its own lazy `load_coco_json` closure, each metadata entry carries its
own `json_file`, `image_root` and the evaluator type "coco", and each
loader is independently invokable. -/
theorem register_two_names_independent (n1 n2 j r1 r2 : String) (c c1 : Catalogs)
    (hne : n1 ≠ n2) (h2 : c.datasets n2 = none)
    (hreg1 : Register.register_dataset_instances n1 j r1 c = some c1) :
    ∃ c2, Register.register_dataset_instances n2 j r2 c1 = some c2 ∧
      c2.datasets n1 = some ⟨j, r1, some n1⟩ ∧
      c2.datasets n2 = some ⟨j, r2, some n2⟩ ∧
      c2.metadata n1 = some ⟨some j, some r1, some "coco"⟩ ∧
      c2.metadata n2 = some ⟨some j, some r2, some "coco"⟩ ∧
      ∀ (α : Type) (load : String → String → Option String → α),
        (c2.datasets n1).map (Loader.load load) = some (load j r1 (some n1)) ∧
        (c2.datasets n2).map (Loader.load load) = some (load j r2 (some n2)) := by
  unfold Register.register_dataset_instances datasetCatalogRegister at hreg1
  split at hreg1
  · simp at hreg1
  · next cmid heq =>
    split at heq
    · simp at heq
    · have hcmid := Option.some.inj heq
      subst hcmid
      have hc1 : c1 = metadataSet n1 j r1 "coco"
          { c with datasets := fun k =>
              if k = n1 then some ⟨j, r1, some n1⟩ else c.datasets k } :=
        (Option.some.inj hreg1).symm
      have hn21 : ¬(n2 = n1) := fun h => hne h.symm
      have hd_n1 : c1.datasets n1 = some ⟨j, r1, some n1⟩ := by
        rw [hc1]; simp [metadataSet]
      have hd_n2 : c1.datasets n2 = none := by
        rw [hc1]
        simp only [metadataSet]
        rw [if_neg hn21]
        exact h2
      have hm_n1 : c1.metadata n1 = some ⟨some j, some r1, some "coco"⟩ := by
        rw [hc1]; simp [metadataSet]
      have hsucc : Register.register_dataset_instances n2 j r2 c1 =
          some (metadataSet n2 j r2 "coco"
            { c1 with datasets := fun k =>
                if k = n2 then some ⟨j, r2, some n2⟩ else c1.datasets k }) := by
        unfold Register.register_dataset_instances datasetCatalogRegister
        rw [hd_n2]
        simp
      refine ⟨_, hsucc, ?_, ?_, ?_, ?_, ?_⟩
      · simp only [metadataSet]
        rw [if_neg hne]
        exact hd_n1
      · simp [metadataSet]
      · simp only [metadataSet]
        rw [if_neg hne]
        exact hm_n1
      · simp [metadataSet]
      · intro α load
        constructor
        · simp only [metadataSet]
          rw [if_neg hne, hd_n1]
          rfl
        · simp [metadataSet, Loader.load]

/-- Concrete configuration used by the witnesses. -/
def cfg0 : Cfg :=
  { IMAGE_SIZE := 4, MIN_SCALE := 1, MAX_SCALE := 1, RANDOM_FLIP := "horizontal",
    FORMAT := "RGB", NUM_OBJECT_QUERIES := 8, N_CTX := 3, TASK_SEQ_LEN := 2, MAX_SEQ_LEN := 2 }

/-- Concrete metadata used by the witnesses. -/
def meta0 : MetaInfo :=
  { thing_classes := ["landslide"], thing_dataset_id_to_contiguous_id := [(1, 0)] }

/-- Concrete training-mode mapper (the value `from_config cfg0 meta0 true`
produces). -/
def m0 : Mapper :=
  { is_train := true, num_queries := 5,
    tfm_gens := [TfmGen.RandomFlip true false, TfmGen.ResizeScale 1 1 4 4,
      TfmGen.FixedSizeCrop (4, 4)],
    img_format := "RGB", class_names := ["landslide"], things := [0],
    max_seq_len := 2, task_seq_len := 2 }

/-- Concrete inference-mode mapper. -/
def m1 : Mapper := { m0 with is_train := false }

/-- Concrete 2x2 source image. -/
def img0 : Grid Nat := ⟨2, 2, fun _ _ => 7⟩

/-- Concrete environment whose image read always succeeds with `img0`. -/
def env0 : Env := { readImage := fun _ => some img0 }

/-- Concrete realized transform semantics: a fixed-size crop to 4x4 (larger
than the 2x2 source), identity on annotations, everything rasterized. -/
def sem0 : TfmSem :=
  { tfms := [Tfm.crop 4 0 0], applyAnn := fun a => a, raster := fun _ _ _ => true }

/-- Concrete non-crowd annotation with one triangle polygon. -/
def a0 : Anno :=
  { segmentation := [[0, 0, 2, 0, 2, 2]], category_id := 0, iscrowd := 0, keypoints := none }

/-- Concrete schema-conforming input record with one annotation. -/
def d0 : Record :=
  { file_name := "x.jpg", width := some 2, height := some 2, annos := some [a0],
    image := none, padding_mask := none, instances := none, orig_shape := none,
    task := none, text := none, thing_ids := none }

/-- Concrete empty catalogs. -/
def c0 : Catalogs := { datasets := fun _ => none, metadata := fun _ => none }

theorem get_texts_budget_length_witness :
    ∃ l, get_texts m0.class_names m0.num_queries [0, 0, 0, 0, 0, 0, 0] = some l ∧
      l.length = cfg0.NUM_OBJECT_QUERIES - cfg0.N_CTX :=
  (get_texts_budget_length cfg0 meta0 m0 [0, 0, 0, 0, 0, 0, 0] rfl (by decide)).1

theorem get_texts_spec_contents_witness :
    get_texts ["landslide"] 5 [0, 0, 0, 0, 0, 0, 0] =
      some (specTexts ["landslide"] 5 (fun n => (List.replicate 7 "landslide").count n)) :=
  get_texts_spec_contents ["landslide"] 5 [0, 0, 0, 0, 0, 0, 0]
    (List.replicate 7 "landslide") rfl

theorem inference_output_has_no_train_keys_witness :
    ∃ r, callRecord m1 env0 sem0 d0 = some r ∧ r.instances = none ∧ r.text = none ∧
      r.task = none ∧ r.annos = none := by
  have hs : (callRecord m1 env0 sem0 d0).isSome = true := rfl
  obtain ⟨r, hr⟩ := Option.isSome_iff_exists.mp hs
  have h := inference_output_has_no_train_keys m1 env0 sem0 d0 r rfl
    ⟨rfl, rfl, rfl, rfl, rfl, rfl, rfl, rfl, rfl⟩ hr
  exact ⟨r, hr, h.1, h.2.1, h.2.2.1, h.2.2.2.1⟩

theorem training_keys_iff_annos_witness :
    ∃ r, callRecord m0 env0 sem0 d0 = some r ∧
      r.instances.isSome = true ∧ r.task = some "The task is instance" ∧
      r.text.isSome = true ∧ r.thing_ids.isSome = true := by
  have hs : (callRecord m0 env0 sem0 d0).isSome = true := rfl
  obtain ⟨r, hr⟩ := Option.isSome_iff_exists.mp hs
  have h := (training_keys_iff_annos m0 env0 sem0 d0 r rfl
    ⟨rfl, rfl, rfl, rfl, rfl, rfl, rfl, rfl, rfl⟩ hr).1 (by rfl)
  exact ⟨r, hr, h.1, h.2.2.1, h.2.2.2.1, h.2.2.2.2⟩

theorem training_instances_filtered_witness :
    ∃ r iset, callRecord m0 env0 sem0 d0 = some r ∧ r.instances = some iset ∧
      iset.gt_classes.length ≤ 1 ∧
      iset.gt_masks.length = iset.gt_classes.length ∧
      iset.gt_boxes.length = iset.gt_classes.length := by
  have hs : (callRecord m0 env0 sem0 d0).isSome = true := rfl
  obtain ⟨r, hr⟩ := Option.isSome_iff_exists.mp hs
  have hs2 : r.instances.isSome = true := by
    have hbind : r.instances = (callRecord m0 env0 sem0 d0).bind (fun x => x.instances) := by
      rw [hr]
      rfl
    rw [hbind]
    rfl
  obtain ⟨iset, hiset⟩ := Option.isSome_iff_exists.mp hs2
  have h := training_instances_filtered m0 env0 sem0 d0 r [a0] iset rfl rfl hr hiset
  exact ⟨r, iset, hr, hiset, h.1, h.2.1, h.2.2.1⟩

theorem convert_poly_one_mask_per_instance_witness :
    (convert_coco_poly_to_mask (fun _ _ _ => true)
      [[[0, 0, 2, 0, 2, 2]], [[0, 0], [1, 1]]] 2 2).length = 2 :=
  (convert_poly_one_mask_per_instance (fun _ _ _ => true)
    [[[0, 0, 2, 0, 2, 2]], [[0, 0], [1, 1]]] 2 2).2

theorem padding_mask_marks_padding_witness :
    ∃ r pm, callRecord m1 env0 sem0 d0 = some r ∧ r.padding_mask = some pm ∧
      (pm.val 3 3 = true ↔ traceSrc sem0.tfms img0.h img0.w (3, 3) = none) ∧
      (pm.val 1 1 = true ↔ traceSrc sem0.tfms img0.h img0.w (1, 1) = none) := by
  have hs : (callRecord m1 env0 sem0 d0).isSome = true := rfl
  obtain ⟨r, hr⟩ := Option.isSome_iff_exists.mp hs
  have hs2 : r.padding_mask.isSome = true := by
    have hbind : r.padding_mask = (callRecord m1 env0 sem0 d0).bind (fun x => x.padding_mask) := by
      rw [hr]
      rfl
    rw [hbind]
    rfl
  obtain ⟨pm, hpm⟩ := Option.isSome_iff_exists.mp hs2
  have hval : (callRecord m1 env0 sem0 d0).bind (fun x => x.padding_mask) = some pm := by
    rw [hr]
    exact hpm
  have hh : pm.h = ((callRecord m1 env0 sem0 d0).bind
      (fun x => x.padding_mask)).elim 0 (fun g => g.h) := by
    rw [hval]
    rfl
  have hw : pm.w = ((callRecord m1 env0 sem0 d0).bind
      (fun x => x.padding_mask)).elim 0 (fun g => g.w) := by
    rw [hval]
    rfl
  have h3h : (3 : Nat) < pm.h := by rw [hh]; decide
  have h3w : (3 : Nat) < pm.w := by rw [hw]; decide
  have hwf : ListWF sem0.tfms img0.h img0.w := ⟨trivial, trivial⟩
  have h33 := padding_mask_marks_padding m1 env0 sem0 d0 r pm img0 rfl hr hpm hwf
    3 3 h3h h3w
  have h11 := padding_mask_marks_padding m1 env0 sem0 d0 r pm img0 rfl hr hpm hwf
    1 1 (by omega) (by omega)
  exact ⟨r, pm, hr, hpm, h33.1, h11.1⟩

theorem register_two_names_independent_witness :
    ∃ c1 c2,
      Register.register_dataset_instances "coco_landslide_train" Register.TRAIN_JSON
        Register.TRAIN_PATH c0 = some c1 ∧
      Register.register_dataset_instances "coco_landslide_val" Register.TRAIN_JSON
        Register.VAL_PATH c1 = some c2 ∧
      c2.datasets "coco_landslide_train" =
        some ⟨Register.TRAIN_JSON, Register.TRAIN_PATH, some "coco_landslide_train"⟩ ∧
      c2.datasets "coco_landslide_val" =
        some ⟨Register.TRAIN_JSON, Register.VAL_PATH, some "coco_landslide_val"⟩ := by
  have hs : (Register.register_dataset_instances "coco_landslide_train" Register.TRAIN_JSON
      Register.TRAIN_PATH c0).isSome = true := rfl
  obtain ⟨c1, hc1⟩ := Option.isSome_iff_exists.mp hs
  obtain ⟨c2, hsucc, hd1, hd2, _, _, _⟩ :=
    register_two_names_independent "coco_landslide_train" "coco_landslide_val"
      Register.TRAIN_JSON Register.TRAIN_PATH Register.VAL_PATH c0 c1 (by decide) rfl hc1
  exact ⟨c1, c2, hc1, hsucc, hd1, hd2⟩

theorem call_leaves_caller_record_unchanged_witness :
    ((callRecordHeap m0 env0 sem0 [d0] 0).1).get? 0 = some d0 := by
  have h := call_leaves_caller_record_unchanged m0 env0 sem0 [d0] 0 0 (by decide)
  rw [h]
  rfl

theorem build_transform_gen_order_witness :
    ∃ l, build_transform_gen cfg0 true = some l ∧ l.length = 3 := by
  obtain ⟨l, hl, _, h3⟩ := build_transform_gen_order cfg0
  exact ⟨l, hl, (h3 (by decide)).2⟩
